import Mathlib

/-!
Verification of the transaction capacity probe of the solana-alt-demo
repository.

The probed loops live in `src/components/address-limit-test.tsx`
(`testAddressLimit`) and in `src/components/alt-card.tsx`
(`testNormalTransactionLimit`, `testALTTransactionLimit`).  Each loop tries
operation counts 1, 2, 3, ... up to a bound; at each count it asks an
external sizing routine (the `@solana/web3.js` SDK: build instructions,
compile the message, serialize) for the byte length, stops with an error
string when the length exceeds 1232 bytes or when the sizing call throws,
and otherwise records the count as feasible.  The sizing routine is kept
abstract here as a function `Nat → Except String Nat` (count to either a
byte size or a thrown error message), exactly the interface the loops use.

The comparison and fee reporting logic (`alt-card.tsx` lines 416-421 and
493-507, `address-limit-test.tsx` lines 324-331) is embedded below as
`compareResults` and `feeComparison`.
-/

/-- Result record of a probe run, mirroring the `TestResult` interface of
`alt-card.tsx` (`maxAddresses`, `error`); the state pair
`(maxAddresses, error)` of `address-limit-test.tsx` has the same shape. -/
structure TestResult where
  maxAddresses : Nat
  error : Option String
  deriving DecidableEq, Repr

/-- The Solana transaction size limit checked by every probe loop. -/
def byteCeiling : Nat := 1232

/-- The oversize message built by `testAddressLimit` and
`testNormalTransactionLimit` when the serialized length exceeds 1232. -/
def normalExceedMsg (len : Nat) : String :=
  "交易大小超过限制 (" ++ toString len ++ " bytes > 1232 bytes)"

/-- The oversize message built by `testALTTransactionLimit`. -/
def altExceedMsg (len : Nat) : String :=
  "ALT 交易大小超过限制 (" ++ toString len ++ " bytes > 1232 bytes)"

/-- The probe loop body, one constructor step per loop iteration.
`count` is the loop variable, `fuel` the number of counts still to try,
`maxSoFar` the last recorded feasible count (`maxAddresses` in the code).
On `sizeAt count = .error msg` the code catch-block stores the message and
breaks; on a size above `ceiling` it stores the oversize message and
breaks; otherwise it records `count` and continues. -/
def probeFrom (sizeAt : Nat → Except String Nat) (exceedMsg : Nat → String)
    (ceiling : Nat) : Nat → Nat → Nat → TestResult
  | _, 0, maxSoFar => ⟨maxSoFar, none⟩
  | count, fuel + 1, maxSoFar =>
    match sizeAt count with
    | .error msg => ⟨maxSoFar, some msg⟩
    | .ok size =>
      if ceiling < size then ⟨maxSoFar, some (exceedMsg size)⟩
      else probeFrom sizeAt exceedMsg ceiling (count + 1) fuel count

/-- A full probe run: counts 1 .. `bound`, starting from no feasible count,
as in `for (let count = 1; count <= bound; count++)`. -/
def probe (sizeAt : Nat → Except String Nat) (exceedMsg : Nat → String)
    (ceiling bound : Nat) : TestResult :=
  probeFrom sizeAt exceedMsg ceiling 1 bound 0

/-- The probe of `testAddressLimit` in `address-limit-test.tsx`:
bound 50, ceiling 1232. -/
def testAddressLimit (sizeAt : Nat → Except String Nat) : TestResult :=
  probe sizeAt normalExceedMsg byteCeiling 50

/-- The probe of `testNormalTransactionLimit` in `alt-card.tsx`:
bound 100, ceiling 1232. -/
def testNormalTransactionLimit (sizeAt : Nat → Except String Nat) : TestResult :=
  probe sizeAt normalExceedMsg byteCeiling 100

/-- The probe of `testALTTransactionLimit` in `alt-card.tsx`: the loop
bound is `Math.min(256, altAddresses.length)`, ceiling 1232. -/
def testALTTransactionLimit (sizeAt : Nat → Except String Nat)
    (altAddressesLength : Nat) : TestResult :=
  probe sizeAt altExceedMsg byteCeiling (min 256 altAddressesLength)

/-- A count `k` is feasible when the sizing call returns a byte length
within the ceiling. -/
def fitsAt (sizeAt : Nat → Except String Nat) (ceiling k : Nat) : Bool :=
  match sizeAt k with
  | .ok s => decide (s ≤ ceiling)
  | .error _ => false

theorem fitsAt_true_of_ok {sizeAt : Nat → Except String Nat} {ceiling k s : Nat}
    (hk : sizeAt k = .ok s) (hs : s ≤ ceiling) :
    fitsAt sizeAt ceiling k = true := by
  simp [fitsAt, hk, hs]

theorem le_ceiling_of_fitsAt {sizeAt : Nat → Except String Nat} {ceiling k s : Nat}
    (hf : fitsAt sizeAt ceiling k = true) (hk : sizeAt k = .ok s) :
    s ≤ ceiling := by
  simpa [fitsAt, hk] using hf

/-- The recorded maximum never drops below its starting value. -/
theorem probeFrom_start_le (sizeAt : Nat → Except String Nat)
    (exceedMsg : Nat → String) (ceiling : Nat) :
    ∀ fuel count maxSoFar, maxSoFar + 1 = count →
      maxSoFar ≤ (probeFrom sizeAt exceedMsg ceiling count fuel maxSoFar).maxAddresses := by
  intro fuel
  induction fuel with
  | zero => intro count m _; simp [probeFrom]
  | succ n ih =>
    intro count m hm
    cases h : sizeAt count with
    | error msg => simp [probeFrom, h]
    | ok s =>
      by_cases hc : ceiling < s
      · simp [probeFrom, h, hc]
      · have hrec := ih (count + 1) count rfl
        simp only [probeFrom, h, hc, if_false]
        omega

/-- If the first `k` remaining counts all fit, the probe records at least
`maxSoFar + k`. -/
theorem probeFrom_ge_of_fits (sizeAt : Nat → Except String Nat)
    (exceedMsg : Nat → String) (ceiling : Nat) :
    ∀ k fuel count maxSoFar, maxSoFar + 1 = count →
      (∀ j, count ≤ j → j < count + k → fitsAt sizeAt ceiling j = true) →
      k ≤ fuel →
      maxSoFar + k ≤ (probeFrom sizeAt exceedMsg ceiling count fuel maxSoFar).maxAddresses := by
  intro k
  induction k with
  | zero =>
    intro fuel count m hm _ _
    simpa using probeFrom_start_le sizeAt exceedMsg ceiling fuel count m hm
  | succ k ih =>
    intro fuel count m hm hfit hk
    cases fuel with
    | zero => omega
    | succ n =>
      have hc : fitsAt sizeAt ceiling count = true := hfit count le_rfl (by omega)
      cases h : sizeAt count with
      | error msg => simp [fitsAt, h] at hc
      | ok s =>
        have hs : s ≤ ceiling := le_ceiling_of_fitsAt hc h
        have hlt : ¬ ceiling < s := not_lt.mpr hs
        simp only [probeFrom, h, hlt, if_false]
        have := ih n (count + 1) count rfl
          (fun j hj hj2 => hfit j (by omega) (by omega)) (by omega)
        omega

/-- The probe never records more than `maxSoFar + fuel`, and a run with no
recorded error used up all its fuel with every count feasible. -/
theorem probeFrom_le_and_complete (sizeAt : Nat → Except String Nat)
    (exceedMsg : Nat → String) (ceiling : Nat) :
    ∀ fuel count maxSoFar, maxSoFar + 1 = count →
      (probeFrom sizeAt exceedMsg ceiling count fuel maxSoFar).maxAddresses ≤ maxSoFar + fuel ∧
      ((probeFrom sizeAt exceedMsg ceiling count fuel maxSoFar).error = none →
        (probeFrom sizeAt exceedMsg ceiling count fuel maxSoFar).maxAddresses = maxSoFar + fuel) := by
  intro fuel
  induction fuel with
  | zero => intro count m _; simp [probeFrom]
  | succ n ih =>
    intro count m hm
    cases h : sizeAt count with
    | error msg => simp [probeFrom, h]
    | ok s =>
      by_cases hc : ceiling < s
      · simp [probeFrom, h, hc]
      · have hrec := ih (count + 1) count rfl
        simp only [probeFrom, h, hc, if_false]
        constructor
        · omega
        · intro hnone
          have := hrec.2 hnone
          omega

/-- Every count up to the recorded maximum was sized and fit. -/
theorem probeFrom_all_below_fit (sizeAt : Nat → Except String Nat)
    (exceedMsg : Nat → String) (ceiling : Nat) :
    ∀ fuel count maxSoFar, maxSoFar + 1 = count →
      ∀ j, count ≤ j →
        j ≤ (probeFrom sizeAt exceedMsg ceiling count fuel maxSoFar).maxAddresses →
        fitsAt sizeAt ceiling j = true := by
  intro fuel
  induction fuel with
  | zero =>
    intro count m hm j hj hjle
    simp [probeFrom] at hjle
    omega
  | succ n ih =>
    intro count m hm j hj hjle
    cases h : sizeAt count with
    | error msg =>
      simp [probeFrom, h] at hjle
      omega
    | ok s =>
      by_cases hc : ceiling < s
      · simp [probeFrom, h, hc] at hjle
        omega
      · simp only [probeFrom, h, hc, if_false] at hjle
        rcases eq_or_lt_of_le hj with hje | hjgt
        · exact fitsAt_true_of_ok (hje ▸ h) (not_lt.mp hc)
        · exact ih (count + 1) count rfl j hjgt hjle

/-- When the probe stops short of its fuel, the very next count after the
recorded maximum does not fit. -/
theorem probeFrom_first_fail (sizeAt : Nat → Except String Nat)
    (exceedMsg : Nat → String) (ceiling : Nat) :
    ∀ fuel count maxSoFar, maxSoFar + 1 = count →
      (probeFrom sizeAt exceedMsg ceiling count fuel maxSoFar).maxAddresses < maxSoFar + fuel →
      fitsAt sizeAt ceiling
        ((probeFrom sizeAt exceedMsg ceiling count fuel maxSoFar).maxAddresses + 1) = false := by
  intro fuel
  induction fuel with
  | zero => intro count m hm hlt; simp [probeFrom] at hlt
  | succ n ih =>
    intro count m hm hlt
    cases h : sizeAt count with
    | error msg =>
      simp only [probeFrom, h]
      simp [fitsAt, hm, h]
    | ok s =>
      by_cases hc : ceiling < s
      · simp only [probeFrom, h, hc, if_true]
        have : fitsAt sizeAt ceiling count = false := by
          simp [fitsAt, h]
          omega
        simpa [hm] using this
      · simp only [probeFrom, h, hc, if_false] at hlt ⊢
        exact ih (count + 1) count rfl (by omega)

/-- When every count before `d` fits and the sizing at `d` returns a size
above the ceiling, the loop stops at `d` with the oversize message and the
maximum recorded before `d`. -/
theorem probeFrom_stops_oversize (sizeAt : Nat → Except String Nat)
    (exceedMsg : Nat → String) (ceiling : Nat) :
    ∀ fuel count maxSoFar d s, maxSoFar + 1 = count →
      count ≤ d → d < count + fuel →
      (∀ j, count ≤ j → j < d → fitsAt sizeAt ceiling j = true) →
      sizeAt d = .ok s → ceiling < s →
      probeFrom sizeAt exceedMsg ceiling count fuel maxSoFar =
        ⟨d - 1, some (exceedMsg s)⟩ := by
  intro fuel
  induction fuel with
  | zero => intro count m d s hm hcd hdf _ _ _; omega
  | succ n ih =>
    intro count m d s hm hcd hdf hfit hd hs
    rcases eq_or_lt_of_le hcd with hce | hclt
    · subst hce
      simp only [probeFrom, hd, hs, if_true]
      have : m = count - 1 := by omega
      simp [this]
    · have hc : fitsAt sizeAt ceiling count = true := hfit count le_rfl hclt
      cases h : sizeAt count with
      | error msg => simp [fitsAt, h] at hc
      | ok sc =>
        have hsc : sc ≤ ceiling := le_ceiling_of_fitsAt hc h
        have hnlt : ¬ ceiling < sc := not_lt.mpr hsc
        simp only [probeFrom, h, hnlt, if_false]
        exact ih (count + 1) count d s rfl (by omega) (by omega)
          (fun j hj hj2 => hfit j (by omega) hj2) hd hs

/-- When every count before `d` fits and the sizing at `d` throws, the
catch-block stops the loop at `d`, storing the thrown message and the
maximum recorded before `d`. -/
theorem probeFrom_stops_error (sizeAt : Nat → Except String Nat)
    (exceedMsg : Nat → String) (ceiling : Nat) :
    ∀ fuel count maxSoFar d msg, maxSoFar + 1 = count →
      count ≤ d → d < count + fuel →
      (∀ j, count ≤ j → j < d → fitsAt sizeAt ceiling j = true) →
      sizeAt d = .error msg →
      probeFrom sizeAt exceedMsg ceiling count fuel maxSoFar =
        ⟨d - 1, some msg⟩ := by
  intro fuel
  induction fuel with
  | zero => intro count m d msg hm hcd hdf _ _; omega
  | succ n ih =>
    intro count m d msg hm hcd hdf hfit hd
    rcases eq_or_lt_of_le hcd with hce | hclt
    · subst hce
      simp only [probeFrom, hd]
      have : m = count - 1 := by omega
      simp [this]
    · have hc : fitsAt sizeAt ceiling count = true := hfit count le_rfl hclt
      cases h : sizeAt count with
      | error msg2 => simp [fitsAt, h] at hc
      | ok sc =>
        have hsc : sc ≤ ceiling := le_ceiling_of_fitsAt hc h
        have hnlt : ¬ ceiling < sc := not_lt.mpr hsc
        simp only [probeFrom, h, hnlt, if_false]
        exact ih (count + 1) count d msg rfl (by omega) (by omega)
          (fun j hj hj2 => hfit j (by omega) hj2) hd

/-- Claim C1: for every probe run, if the serialized message size first
exceeds the 1232-byte ceiling at count `c` (every earlier count was sized
and fit, and the sizing at `c` returns `s > 1232`), then the probe halts
at `c` and returns `maxOperations = c - 1` (0 when `c = 1`) together with
the oversize `limitingError`. -/
theorem probe_stops_at_first_oversize (sizeAt : Nat → Except String Nat)
    (exceedMsg : Nat → String) (bound c s : Nat)
    (hfit : ∀ j, j < c → 1 ≤ j → fitsAt sizeAt byteCeiling j = true)
    (hc : sizeAt c = .ok s) (hs : byteCeiling < s)
    (hc1 : 1 ≤ c) (hcb : c ≤ bound) :
    probe sizeAt exceedMsg byteCeiling bound = ⟨c - 1, some (exceedMsg s)⟩ :=
  probeFrom_stops_oversize sizeAt exceedMsg byteCeiling bound 1 0 c s rfl hc1
    (by omega) (fun j hj hj2 => hfit j hj2 hj) hc hs

theorem probe_stops_at_first_oversize_witness :
    probe (fun k => Except.ok (100 + 40 * k)) normalExceedMsg byteCeiling 50 =
      ⟨28, some (normalExceedMsg 1260)⟩ :=
  probe_stops_at_first_oversize (fun k => Except.ok (100 + 40 * k))
    normalExceedMsg 50 29 1260 (by decide) rfl (by decide)
    (by decide) (by decide)

/-- Claim C2: the feasible counts of a probe run form exactly the prefix
from 1 to the returned maximum: every count up to the maximum was sized
and fit, and if the probe stopped before its bound then the very next
count is the first failing one. -/
theorem probe_feasible_initial_segment (sizeAt : Nat → Except String Nat)
    (exceedMsg : Nat → String) (ceiling bound : Nat) :
    (∀ k, 1 ≤ k → k ≤ (probe sizeAt exceedMsg ceiling bound).maxAddresses →
      fitsAt sizeAt ceiling k = true) ∧
    ((probe sizeAt exceedMsg ceiling bound).maxAddresses < bound →
      fitsAt sizeAt ceiling
        ((probe sizeAt exceedMsg ceiling bound).maxAddresses + 1) = false) := by
  constructor
  · intro k hk1 hkle
    exact probeFrom_all_below_fit sizeAt exceedMsg ceiling bound 1 0 rfl k hk1 hkle
  · intro hlt
    exact probeFrom_first_fail sizeAt exceedMsg ceiling bound 1 0 rfl
      (by simpa [probe] using hlt)

theorem probe_feasible_initial_segment_witness :
    fitsAt (fun k => Except.ok (100 + 40 * k)) 1232 28 = true ∧
    fitsAt (fun k => Except.ok (100 + 40 * k)) 1232 29 = false := by
  constructor
  · exact (probe_feasible_initial_segment (fun k => Except.ok (100 + 40 * k))
      normalExceedMsg 1232 50).1 28 (by decide) (by decide)
  · have h2 := (probe_feasible_initial_segment (fun k => Except.ok (100 + 40 * k))
      normalExceedMsg 1232 50).2 (by decide)
    rw [show (probe (fun k => Except.ok (100 + 40 * k)) normalExceedMsg
      1232 50).maxAddresses = 28 from by decide] at h2
    exact h2

/-- Claim C3: if the sizing call itself throws at count `c` after every
earlier count fit, the probe does not propagate the exception: it returns
a normal result whose `limitingError` is the thrown message and whose
`maxOperations` is `c - 1`, the largest count that succeeded before. -/
theorem probe_captures_sizer_error (sizeAt : Nat → Except String Nat)
    (exceedMsg : Nat → String) (bound c : Nat) (msg : String)
    (hfit : ∀ j, j < c → 1 ≤ j → fitsAt sizeAt byteCeiling j = true)
    (hc : sizeAt c = .error msg) (hc1 : 1 ≤ c) (hcb : c ≤ bound) :
    probe sizeAt exceedMsg byteCeiling bound = ⟨c - 1, some msg⟩ :=
  probeFrom_stops_error sizeAt exceedMsg byteCeiling bound 1 0 c msg rfl hc1
    (by omega) (fun j hj hj2 => hfit j hj2 hj) hc

theorem probe_captures_sizer_error_witness :
    probe (fun k => if k < 3 then Except.ok 100 else Except.error "boom")
      normalExceedMsg byteCeiling 50 = ⟨2, some "boom"⟩ :=
  probe_captures_sizer_error
    (fun k => if k < 3 then Except.ok 100 else Except.error "boom")
    normalExceedMsg 50 3 "boom" (by decide) rfl (by decide) (by decide)

/-- Claim C9: every completed probe run returns a maximum between 0 and
the count bound of its variant (50 for `testAddressLimit`, 100 for
`testNormalTransactionLimit`, `min 256 tableLength` for
`testALTTransactionLimit`), and when the returned error is `none` the run
went to completion, so the maximum equals the bound exactly. -/
theorem probe_bound_and_completion (s1 s2 s3 : Nat → Except String Nat)
    (len : Nat) :
    ((testAddressLimit s1).maxAddresses ≤ 50 ∧
      ((testAddressLimit s1).error = none →
        (testAddressLimit s1).maxAddresses = 50)) ∧
    ((testNormalTransactionLimit s2).maxAddresses ≤ 100 ∧
      ((testNormalTransactionLimit s2).error = none →
        (testNormalTransactionLimit s2).maxAddresses = 100)) ∧
    ((testALTTransactionLimit s3 len).maxAddresses ≤ min 256 len ∧
      ((testALTTransactionLimit s3 len).error = none →
        (testALTTransactionLimit s3 len).maxAddresses = min 256 len)) := by
  refine ⟨?_, ?_, ?_⟩
  · have h := probeFrom_le_and_complete s1 normalExceedMsg byteCeiling 50 1 0 rfl
    exact ⟨h.1, h.2⟩
  · have h := probeFrom_le_and_complete s2 normalExceedMsg byteCeiling 100 1 0 rfl
    exact ⟨h.1, h.2⟩
  · have h := probeFrom_le_and_complete s3 altExceedMsg byteCeiling
      (min 256 len) 1 0 rfl
    exact ⟨by simpa using h.1, by simpa using h.2⟩

theorem probe_bound_and_completion_witness :
    (testAddressLimit (fun _ => Except.ok 10)).maxAddresses = 50 ∧
    (testALTTransactionLimit (fun _ => Except.ok 10) 5).maxAddresses = min 256 5 := by
  constructor
  · exact (probe_bound_and_completion (fun _ => Except.ok 10)
      (fun _ => Except.ok 10) (fun _ => Except.ok 10) 5).1.2 (by decide)
  · exact (probe_bound_and_completion (fun _ => Except.ok 10)
      (fun _ => Except.ok 10) (fun _ => Except.ok 10) 5).2.2.2 (by decide)

set_option maxRecDepth 8000 in
/-- Claim C4 counterexample: with a lookup table of only 3 entries (fewer
than the 256 bound) and a sizing routine under which every count fits,
`testALTTransactionLimit` does not fail with any `InsufficientPoolError`:
it silently clamps the bound to the pool size, probes only 3 counts, and
returns a normal successful result, whereas the unclamped probe over the
same sizer would reach 256. -/
theorem alt_probe_no_insufficient_pool_cex :
    (testALTTransactionLimit (fun _ => Except.ok 200) 3 =
      ⟨3, none⟩) ∧
    (probe (fun _ => Except.ok 200) altExceedMsg byteCeiling 256).maxAddresses = 256 := by
  constructor
  · decide
  · decide

/-- Claim C4 amended: a probe call whose address pool has fewer entries
than 256 does not fail; `testALTTransactionLimit` clamps the count bound
to the pool size via `Math.min(256, altAddresses.length)` and silently
probes only that many counts, returning a normal result. -/
theorem alt_probe_clamps_bound (sizeAt : Nat → Except String Nat) (len : Nat)
    (hlen : len < 256) :
    (testALTTransactionLimit sizeAt len).maxAddresses ≤ len ∧
    ((testALTTransactionLimit sizeAt len).error = none →
      (testALTTransactionLimit sizeAt len).maxAddresses = len) := by
  have h := probeFrom_le_and_complete sizeAt altExceedMsg byteCeiling
    (min 256 len) 1 0 rfl
  have hmin : min 256 len = len := by omega
  constructor
  · have := h.1
    simpa [testALTTransactionLimit, probe, hmin] using this
  · intro hnone
    have := h.2 (by simpa [testALTTransactionLimit, probe] using hnone)
    simpa [testALTTransactionLimit, probe, hmin] using this

theorem alt_probe_clamps_bound_witness :
    (testALTTransactionLimit (fun _ => Except.ok 200) 3).maxAddresses = 3 :=
  (alt_probe_clamps_bound (fun _ => Except.ok 200) 3 (by decide)).2 (by decide)

/-- Model of the JavaScript `Number.prototype.toFixed(1)` rendering used
by the comparison code (an external builtin): the value is scaled by ten,
rounded to the nearest integer, and printed with one decimal digit. -/
def toFixed1 (q : ℚ) : String :=
  (if round (q * 10) < 0 then "-" else "") ++
    toString ((round (q * 10)).natAbs / 10) ++ "." ++
    toString ((round (q * 10)).natAbs % 10)

theorem toFixed1_zero : toFixed1 0 = "0.0" := by
  have h : round ((0 : ℚ) * 10) = 0 := by
    rw [zero_mul, round_zero]
  simp only [toFixed1, h]
  rfl

/-- The improvement report computed by `testAddressLimit` in
`alt-card.tsx` (lines 416-419) and rendered at lines 493-507:
`improvement = alt - normal` and
`improvementPercentage = ((improvement / normal) * 100).toFixed(1)`. -/
structure ComparisonReport where
  improvement : Int
  improvementPercentage : String
  deriving Repr

/-- The comparison driver of `alt-card.tsx`: the report is produced only
behind the guard `normalResult.maxAddresses > 0 && altResult.maxAddresses > 0`. -/
def compareResults (normalResult altResult : TestResult) : Option ComparisonReport :=
  if 0 < normalResult.maxAddresses ∧ 0 < altResult.maxAddresses then
    some { improvement :=
             (altResult.maxAddresses : Int) - normalResult.maxAddresses,
           improvementPercentage :=
             toFixed1 ((((altResult.maxAddresses : ℚ) -
               normalResult.maxAddresses) / normalResult.maxAddresses) * 100) }
  else none

/-- The render template appends a percent sign to the `toFixed(1)` output:
`提升 ...%`. -/
def improvementPercentDisplay (c : ComparisonReport) : String :=
  c.improvementPercentage ++ "%"

/-- Claim C5: with a baseline of zero `maxOperations` the comparison is
not computed at all (the percentage is not shown and no division happens),
so no division-by-zero failure and no `Infinity` can be produced. -/
theorem compare_baseline_zero_not_applicable (baseline assisted : TestResult)
    (hb : baseline.maxAddresses = 0) :
    compareResults baseline assisted = none := by
  simp [compareResults, hb]

theorem compare_baseline_zero_not_applicable_witness :
    compareResults ⟨0, none⟩ ⟨5, none⟩ = none :=
  compare_baseline_zero_not_applicable ⟨0, none⟩ ⟨5, none⟩ rfl

/-- Claim C7: comparing a result with non-zero maximum against itself
yields a report with `delta = 0` whose percentage renders as `0.0%`. -/
theorem compare_self_zero (r : TestResult) (hr : 0 < r.maxAddresses) :
    ∃ c, compareResults r r = some c ∧ c.improvement = 0 ∧
      improvementPercentDisplay c = "0.0%" := by
  refine ⟨⟨(r.maxAddresses : Int) - r.maxAddresses,
    toFixed1 ((((r.maxAddresses : ℚ) - r.maxAddresses) /
      r.maxAddresses) * 100)⟩, ?_, ?_, ?_⟩
  · unfold compareResults
    rw [if_pos ⟨hr, hr⟩]
  · simp
  · unfold improvementPercentDisplay
    simp only [sub_self, zero_div, zero_mul, toFixed1_zero]
    rfl

theorem compare_self_zero_witness :
    ∃ c, compareResults ⟨28, none⟩ ⟨28, none⟩ = some c ∧ c.improvement = 0 ∧
      improvementPercentDisplay c = "0.0%" :=
  compare_self_zero ⟨28, none⟩ (by decide)

/-- The fee report computed by the `feeComparison` memo of
`address-limit-test.tsx` (lines 324-331): `savings = normalTxFee - altTxFee`
and `savingsPercentage = ((savings / normalTxFee) * 100).toFixed(1)`. -/
structure FeeComparison where
  savings : Int
  savingsPercentage : String
  deriving Repr

/-- The memo guards on JavaScript truthiness of both fee numbers:
`if (normalTxFee && altTxFee)`, so a fee of exactly 0 on either side
yields `null`. -/
def feeComparison (normalTxFee altTxFee : Nat) : Option FeeComparison :=
  if normalTxFee ≠ 0 ∧ altTxFee ≠ 0 then
    some { savings := (normalTxFee : Int) - altTxFee,
           savingsPercentage :=
             toFixed1 ((((normalTxFee : ℚ) - altTxFee) / normalTxFee) * 100) }
  else none

/-- Claim C10: the fee comparison is non-null exactly when both fees are
non-zero, and in that case the reported savings is the normal fee minus
the ALT fee as a signed integer, so it may be negative. -/
theorem feeComparison_iff_and_savings (normalTxFee altTxFee : Nat) :
    (feeComparison normalTxFee altTxFee ≠ none ↔
      (normalTxFee ≠ 0 ∧ altTxFee ≠ 0)) ∧
    (normalTxFee ≠ 0 → altTxFee ≠ 0 →
      feeComparison normalTxFee altTxFee =
        some ⟨(normalTxFee : Int) - altTxFee,
          toFixed1 ((((normalTxFee : ℚ) - altTxFee) / normalTxFee) * 100)⟩) := by
  constructor
  · constructor
    · intro hne
      by_contra hnot
      exact hne (by simp [feeComparison, hnot])
    · intro hpos
      simp [feeComparison, hpos]
  · intro h1 h2
    simp [feeComparison, h1, h2]

theorem feeComparison_iff_and_savings_witness :
    feeComparison 2 3 =
      some ⟨(2 : Int) - 3, toFixed1 ((((2 : ℚ) - 3) / 2) * 100)⟩ ∧
    (2 : Int) - 3 < 0 :=
  ⟨(feeComparison_iff_and_savings 2 3).2 (by decide) (by decide), by decide⟩

/-- Addressing mode of the Message Sizer (spec section 4.3): inline
32-byte identifiers versus 1-byte indexes into a lookup table. -/
inductive AddressingMode where
  | inlineMode
  | tableIndexed
  deriving DecidableEq, Repr

/-- Modelled from the spec: the fixed-width 64-bit little-endian lamports
field of a transfer operation.  The byte-level encoding is performed by the
external `@solana/web3.js` SDK, absent from `src/`; the spec (sections 3
and 9) requires the amount to be a fixed-size field whose numeric value
does not affect serialized length. -/
def encodeU64LE (n : Nat) : List Nat :=
  (List.range 8).map (fun i => n / 2 ^ (8 * i) % 256)

theorem encodeU64LE_length (n : Nat) : (encodeU64LE n).length = 8 := by
  simp [encodeU64LE]

/-- A transfer operation (spec section 3): source, destination, amount. -/
structure Operation where
  source : Nat
  destination : Nat
  amount : Nat
  deriving DecidableEq, Repr

/-- The first `dests.length` transfer operations the probe builds from a
pool: same source and amount, destinations drawn in pool order. -/
def mkOps (src : Nat) (dests : List Nat) (amt : Nat) : List Operation :=
  dests.map (fun d => ⟨src, d, amt⟩)

/-- Mode-independent message header overhead (spec section 8 example). -/
def headerOverhead : Nat := 100

/-- One-time overhead of referencing the lookup table in the message
header (spec section 8 example). -/
def tableRefOverhead : Nat := 35

/-- Length of an account identifier in bytes (spec section 3). -/
def identifierLength : Nat := 32

/-- Per-operation cost of the destination field: full identifier inline,
one index byte under a table. -/
def destFieldSize : AddressingMode → Nat
  | .inlineMode => identifierLength
  | .tableIndexed => 1

/-- Serialized cost of one operation: the fixed-width amount field plus
the mode-dependent destination field. -/
def operationSize (mode : AddressingMode) (op : Operation) : Nat :=
  (encodeU64LE op.amount).length + destFieldSize mode

/-- Modelled from the spec: the Message Sizer of sections 4.1 and 4.3
(the actual serialization lives in the external `@solana/web3.js` SDK,
absent from `src/`).  Constants follow the section 8 end-to-end example:
header 100 bytes, inline per-operation 40 = 8-byte amount + 32-byte
identifier, table-indexed per-operation 9 = 8 + 1-byte index, table
reference overhead 35.  Under table-indexed mode a destination absent
from the table fails with an encoding error. -/
def sizeMessage (mode : AddressingMode) (table : List Nat)
    (ops : List Operation) : Except String Nat :=
  match mode with
  | .inlineMode =>
    .ok (headerOverhead + (ops.map (operationSize .inlineMode)).sum)
  | .tableIndexed =>
    if ∀ op ∈ ops, op.destination ∈ table then
      .ok (headerOverhead + tableRefOverhead +
        (ops.map (operationSize .tableIndexed)).sum)
    else .error "destination not in table"

theorem opsSize_sum (mode : AddressingMode) (src amt : Nat) (dests : List Nat) :
    ((mkOps src dests amt).map (operationSize mode)).sum =
      dests.length * (8 + destFieldSize mode) := by
  induction dests with
  | nil => simp [mkOps]
  | cons d ds ih =>
    simp only [mkOps, List.map_cons, List.sum_cons, List.length_cons] at ih ⊢
    rw [ih, operationSize, encodeU64LE_length]
    ring

/-- Sizing the first `k` pool entries inline: `100 + 40 k` bytes. -/
def inlineSizeAt (pool : List Nat) (src amt k : Nat) : Except String Nat :=
  sizeMessage .inlineMode [] (mkOps src (pool.take k) amt)

/-- Sizing the first `k` pool entries through the table holding the very
same pool, as `testALTTransactionLimit` draws its destinations from the
fetched table entries. -/
def tableSizeAt (pool : List Nat) (src amt k : Nat) : Except String Nat :=
  sizeMessage .tableIndexed pool (mkOps src (pool.take k) amt)

/-- The inline-mode capacity probe over a destination pool. -/
def probeInline (pool : List Nat) (src amt ceiling bound : Nat) : TestResult :=
  probe (inlineSizeAt pool src amt) normalExceedMsg ceiling bound

/-- The table-indexed capacity probe over a destination pool. -/
def probeTable (pool : List Nat) (src amt ceiling bound : Nat) : TestResult :=
  probe (tableSizeAt pool src amt) altExceedMsg ceiling bound

theorem inlineSizeAt_eq (pool : List Nat) (src amt k : Nat)
    (hk : k ≤ pool.length) :
    inlineSizeAt pool src amt k = .ok (headerOverhead + k * 40) := by
  unfold inlineSizeAt sizeMessage
  rw [opsSize_sum, List.length_take, min_eq_left hk]
  rfl

theorem tableSizeAt_eq (pool : List Nat) (src amt k : Nat)
    (hk : k ≤ pool.length) :
    tableSizeAt pool src amt k =
      .ok (headerOverhead + tableRefOverhead + k * 9) := by
  have hmem : ∀ op ∈ mkOps src (pool.take k) amt, op.destination ∈ pool := by
    intro op hop
    simp only [mkOps, List.mem_map] at hop
    obtain ⟨d, hd, rfl⟩ := hop
    exact List.take_subset k pool hd
  simp only [tableSizeAt, sizeMessage]
  rw [if_pos hmem, opsSize_sum, List.length_take, min_eq_left hk]
  rfl

/-- Claim C8: the serialized byte length of a compiled message does not
depend on the numeric value of the per-operation amount, in either
addressing mode: the amount is a fixed-width field, so the two lamports
constants used by the code (1000 and the near-zero
`0.001 ** LAMPORTS_PER_SOL`) yield identical sizes. -/
theorem sizeMessage_independent_of_amount (mode : AddressingMode)
    (table : List Nat) (src : Nat) (dests : List Nat) (amt1 amt2 : Nat) :
    sizeMessage mode table (mkOps src dests amt1) =
      sizeMessage mode table (mkOps src dests amt2) := by
  cases mode with
  | inlineMode =>
    simp only [sizeMessage, opsSize_sum]
  | tableIndexed =>
    have hmem : (∀ op ∈ mkOps src dests amt1, op.destination ∈ table) ↔
        (∀ op ∈ mkOps src dests amt2, op.destination ∈ table) := by
      constructor
      · intro h op hop
        simp only [mkOps, List.mem_map] at hop
        obtain ⟨d, hd, rfl⟩ := hop
        exact h ⟨src, d, amt1⟩ (List.mem_map.mpr ⟨d, hd, rfl⟩)
      · intro h op hop
        simp only [mkOps, List.mem_map] at hop
        obtain ⟨d, hd, rfl⟩ := hop
        exact h ⟨src, d, amt2⟩ (List.mem_map.mpr ⟨d, hd, rfl⟩)
    simp only [sizeMessage]
    by_cases h : ∀ op ∈ mkOps src dests amt1, op.destination ∈ table
    · rw [if_pos h, if_pos (hmem.mp h), opsSize_sum, opsSize_sum]
    · rw [if_neg h, if_neg (fun hh => h (hmem.mpr hh))]

/-- Claim C6 counterexample: at ceiling 140 — which exceeds both per-mode
header overheads (100 inline, 135 table-indexed) — with equal-size
one-entry pools, the inline probe fits one operation (140 bytes exactly)
while the table-indexed probe fits none (a single table-indexed operation
needs 144 bytes), so table-indexed addressing performs strictly worse. -/
theorem tableIndexed_not_ge_inline_cex :
    ([5].length = [(7 : Nat)].length) ∧
    headerOverhead < 140 ∧ headerOverhead + tableRefOverhead < 140 ∧
    (probeTable [7] 0 1000 140 1).maxAddresses <
      (probeInline [5] 0 1000 140 1).maxAddresses := by
  refine ⟨rfl, by decide, by decide, by decide⟩

/-- Claim C6 amended: for equal-size pools, the same ceiling and the same
count bound (within the pools), once the ceiling is at least the size of a
one-operation table-indexed message (header overhead + table reference
overhead + 9 bytes, i.e. 144 with the modelled constants, rather than
merely exceeding the per-mode header overhead), the table-indexed probe
never performs worse than the inline probe. -/
theorem tableIndexed_probe_ge_inline (poolI poolT : List Nat)
    (srcI amtI srcT amtT ceiling bound : Nat)
    (hlen : poolI.length = poolT.length)
    (hbound : bound ≤ poolI.length)
    (hceil : headerOverhead + tableRefOverhead + 9 ≤ ceiling) :
    (probeInline poolI srcI amtI ceiling bound).maxAddresses ≤
      (probeTable poolT srcT amtT ceiling bound).maxAddresses := by
  set rI := (probeInline poolI srcI amtI ceiling bound).maxAddresses with hrI
  have hle : rI ≤ bound := by
    have h := probeFrom_le_and_complete (inlineSizeAt poolI srcI amtI)
      normalExceedMsg ceiling bound 1 0 rfl
    simpa [hrI, probeInline, probe] using h.1
  have hfitI : ∀ k, 1 ≤ k → k ≤ rI → 100 + k * 40 ≤ ceiling := by
    intro k h1 h2
    have hf := probeFrom_all_below_fit (inlineSizeAt poolI srcI amtI)
      normalExceedMsg ceiling bound 1 0 rfl k h1
      (by rw [hrI] at h2; simpa [probeInline, probe] using h2)
    have hk : k ≤ poolI.length := le_trans (le_trans h2 hle) hbound
    have heq := inlineSizeAt_eq poolI srcI amtI k hk
    have := le_ceiling_of_fitsAt hf heq
    simpa [headerOverhead] using this
  have hfitT : ∀ j, 1 ≤ j → j < 1 + rI →
      fitsAt (tableSizeAt poolT srcT amtT) ceiling j = true := by
    intro j h1 h2
    have hj : j ≤ rI := by omega
    have hk : j ≤ poolT.length := by
      rw [← hlen]; exact le_trans (le_trans hj hle) hbound
    have heq := tableSizeAt_eq poolT srcT amtT j hk
    apply fitsAt_true_of_ok heq
    have hi := hfitI j h1 hj
    simp only [headerOverhead, tableRefOverhead] at hceil ⊢
    omega
  have hge := probeFrom_ge_of_fits (tableSizeAt poolT srcT amtT)
    altExceedMsg ceiling rI bound 1 0 rfl (fun j hj hj2 => hfitT j hj hj2) hle
  simpa [probeTable, probe] using hge

theorem tableIndexed_probe_ge_inline_witness :
    (probeInline [0, 1, 2] 0 1000 1232 3).maxAddresses ≤
      (probeTable [10, 11, 12] 0 1000 1232 3).maxAddresses :=
  tableIndexed_probe_ge_inline [0, 1, 2] [10, 11, 12] 0 1000 0 1000 1232 3
    rfl (by decide) (by decide)
